import Mathlib

/-!
Verification of the credential-lifecycle and envelope-encryption core of the
o2e repository, as a shallow embedding in Lean 4.

The embedding models:
* the SQLite-backed `User` and `YubiKey` models (`src/backend/models/user.py`,
  `src/backend/models/yubikey.py`) as explicit row lists with the SQL
  statements of the source translated to list operations (an `INSERT` appends,
  an `UPDATE ... WHERE` maps over the rows, a `DELETE ... WHERE` filters,
  unique/primary-key constraints make the insert fail when violated, exactly
  as the `try/except` blocks of the source observe them);
* `WebAuthnService` (`src/backend/services/webauthn_service.py`);
* `EncryptionService` (`src/backend/services/encryption_service.py`) and
  `crypto_service` (`src/backend/services/crypto_service.py`), with the
  external `cryptography` AEAD primitive (AES-256-GCM) modelled as an ideal
  AEAD: an executable keystream cipher plus a perfectly binding
  authentication tag, and the external KDFs (PBKDF2-HMAC-SHA256, HKDF-SHA256)
  modelled as ideal collision-free key-derivation functions;
* the `WebAuthnManager` challenge registry of `src/yubikey_utils.py`.

`os.urandom` is modelled as an explicit entropy source (`Entropy`) threaded
through the functions that draw randomness.  Timestamps
(`datetime.now(timezone.utc)`) are passed explicitly as a `now : Nat`
argument.  Byte strings are `List Nat`; the hex / base64 / JSON (de)serialisation
layers of the source, which are bijections on the byte values they carry, are
elided so stored fields hold the byte lists themselves.
-/

/-- A row of the `users` table (`src/backend/models/user.py`, `User`).
`user_id TEXT PRIMARY KEY`, `username TEXT UNIQUE NOT NULL`. -/
structure UserRow where
  user_id : String
  username : String
  creation_date : Nat
  last_login : Option Nat
  max_yubikeys : Nat
deriving Repr, DecidableEq

/-- A row of the `yubikeys` table (`src/backend/models/yubikey.py`, `YubiKey`).
`credential_id TEXT PRIMARY KEY`. -/
structure YubiKeyRow where
  credential_id : String
  user_id : String
  public_key : List Nat
  nickname : String
  aaguid : Option String
  sign_count : Nat
  is_primary : Bool
  created_at : Nat
  last_used : Option Nat
deriving Repr, DecidableEq

/-- The mutable database state the two models touch. -/
structure DB where
  users : List UserRow
  yubikeys : List YubiKeyRow
deriving Repr, DecidableEq

namespace User

/-- `User.create` (`src/backend/models/user.py` lines 47-89): INSERT a fresh
row; the `users` table's unique constraints (`user_id` primary key,
`username UNIQUE`) make the insert raise, the `except` clause returns `None`
and the store is left unchanged.  `uid` is the freshly generated uuid4 and
`now` the creation timestamp. -/
def create (db : DB) (username : String) (max_yubikeys : Nat := 5)
    (uid : String := "") (now : Nat := 0) : DB × Option UserRow :=
  let user : UserRow :=
    { user_id := uid, username := username, creation_date := now
      last_login := none, max_yubikeys := max_yubikeys }
  if db.users.any (fun u => u.username == username || u.user_id == uid) then
    (db, none)
  else
    ({ db with users := db.users ++ [user] }, some user)

/-- `User.get_by_id`: `SELECT * FROM users WHERE user_id = ?`, `fetchone`. -/
def get_by_id (db : DB) (uid : String) : Option UserRow :=
  db.users.find? (fun u => u.user_id == uid)

/-- `User.count_yubikeys`: `SELECT COUNT(*) FROM yubikeys WHERE user_id = ?`. -/
def count_yubikeys (db : DB) (uid : String) : Nat :=
  db.yubikeys.countP (fun r => r.user_id == uid)

/-- `User.can_register_yubikey`: `count_yubikeys() < max_yubikeys`. -/
def can_register_yubikey (db : DB) (u : UserRow) : Bool :=
  count_yubikeys db u.user_id < u.max_yubikeys

end User

namespace YubiKey

/-- The `UPDATE yubikeys SET is_primary = 0 WHERE user_id = ?` statement used
by both `YubiKey.create` and `YubiKey.set_as_primary`. -/
def clear_primaries (db : DB) (uid : String) : DB :=
  { db with
    yubikeys := db.yubikeys.map
      (fun r => if r.user_id == uid then { r with is_primary := false } else r) }

/-- `YubiKey.create` (`src/backend/models/yubikey.py` lines 63-146): check the
user exists and can register another key, optionally clear existing primaries
(committed before the insert), then INSERT; a duplicate `credential_id`
violates the primary key, the `except` clause returns `None` (the committed
clearing of primaries is not rolled back). -/
def create (db : DB) (credential_id user_id : String) (public_key : List Nat)
    (nickname : String) (aaguid : Option String := none) (sign_count : Nat := 0)
    (is_primary : Bool := false) (now : Nat := 0) : DB × Option YubiKeyRow :=
  match User.get_by_id db user_id with
  | none => (db, none)
  | some u =>
    if !(User.can_register_yubikey db u) then (db, none)
    else
      let db1 := if is_primary then clear_primaries db user_id else db
      if db1.yubikeys.any (fun r => r.credential_id == credential_id) then
        (db1, none)
      else
        let row : YubiKeyRow :=
          { credential_id := credential_id, user_id := user_id
            public_key := public_key, nickname := nickname, aaguid := aaguid
            sign_count := sign_count, is_primary := is_primary
            created_at := now, last_used := none }
        ({ db1 with yubikeys := db1.yubikeys ++ [row] }, some row)

/-- `YubiKey.get_by_credential_id`: `SELECT * ... WHERE credential_id = ?`,
`fetchone` (first matching row). -/
def get_by_credential_id (db : DB) (cid : String) : Option YubiKeyRow :=
  db.yubikeys.find? (fun r => r.credential_id == cid)

/-- `YubiKey.get_yubikeys_by_user_id`: `SELECT * FROM yubikeys WHERE
user_id = ?`, in row (insertion) order. -/
def get_yubikeys_by_user_id (db : DB) (uid : String) : List YubiKeyRow :=
  db.yubikeys.filter (fun r => r.user_id == uid)

/-- `YubiKey.set_as_primary` (lines 261-296): first `UPDATE ... SET
is_primary = 0 WHERE user_id = ?`, then `UPDATE ... SET is_primary = 1 WHERE
credential_id = ?`; returns `True`. -/
def set_as_primary (db : DB) (self : YubiKeyRow) : DB × Bool :=
  let db1 := clear_primaries db self.user_id
  let db2 : DB :=
    { db1 with
      yubikeys := db1.yubikeys.map
        (fun r => if r.credential_id == self.credential_id then
           { r with is_primary := true } else r) }
  (db2, true)

/-- `YubiKey.update` (lines 298-330): `UPDATE yubikeys SET public_key,
nickname, aaguid, sign_count, is_primary, last_used WHERE credential_id = ?`. -/
def update (db : DB) (self : YubiKeyRow) : DB × Bool :=
  ({ db with
     yubikeys := db.yubikeys.map
       (fun r => if r.credential_id == self.credential_id then
          { r with public_key := self.public_key, nickname := self.nickname
                   aaguid := self.aaguid, sign_count := self.sign_count
                   is_primary := self.is_primary, last_used := self.last_used }
        else r) }, true)

/-- `YubiKey.delete` (lines 332-373): refuse to delete the user's only
YubiKey; refuse to delete a primary YubiKey unless another of the user's
YubiKeys is primary; otherwise `DELETE ... WHERE credential_id = ?` and
return `rowcount > 0`. -/
def delete (db : DB) (self : YubiKeyRow) : DB × Bool :=
  let yubikeys := get_yubikeys_by_user_id db self.user_id
  if yubikeys.length ≤ 1 then (db, false)
  else if self.is_primary &&
      !(yubikeys.any (fun r =>
          r.credential_id != self.credential_id && r.is_primary)) then
    (db, false)
  else
    let rowcount :=
      db.yubikeys.countP (fun r => r.credential_id == self.credential_id)
    ({ db with
       yubikeys :=
         db.yubikeys.filter (fun r => !(r.credential_id == self.credential_id)) },
     decide (0 < rowcount))

/-- `YubiKey.update_sign_count` (lines 375-392): reject a non-increasing
counter without mutating anything; otherwise set the counter and the
`last_used` timestamp on the instance and persist via `update`.  Returns the
new database, the (possibly updated) instance and the success flag. -/
def update_sign_count (db : DB) (self : YubiKeyRow) (new_count : Nat)
    (now : Nat) : DB × YubiKeyRow × Bool :=
  if new_count ≤ self.sign_count then (db, self, false)
  else
    let self' := { self with sign_count := new_count, last_used := some now }
    let (db', ok) := update db self'
    (db', self', ok)

end YubiKey

namespace WebAuthnService

/-- Outcome of `WebAuthnService.generate_registration_options`
(`src/backend/services/webauthn_service.py` lines 47-121). -/
inductive RegOptionsResult
  /-- `raise ValueError("User with ID ... not found")` (line 62). -/
  | userNotFound
  /-- `raise ValueError("User has reached the maximum number of YubiKeys")`
  (line 65) — the spec's `CapacityExceeded`. -/
  | capacityExceeded
  /-- Line 68 then evaluates `YubiKey.get_by_user_id`, an attribute the
  `YubiKey` model does not define (its method is named
  `get_yubikeys_by_user_id`), so Python raises `AttributeError` before
  options are built. -/
  | missingMethodError
deriving Repr, DecidableEq

/-- `WebAuthnService.generate_registration_options` (lines 47-121): the user
lookup and the capacity gate, translated exactly; past the gate the source
hits the missing `YubiKey.get_by_user_id` attribute (see
`RegOptionsResult.missingMethodError`). -/
def generate_registration_options (db : DB) (user_id : String) :
    RegOptionsResult :=
  match User.get_by_id db user_id with
  | none => .userNotFound
  | some u =>
    if !(User.can_register_yubikey db u) then .capacityExceeded
    else .missingMethodError

/-- `WebAuthnService.set_primary_yubikey` (lines 313-334): look the
credential up, require it to belong to `user_id`, then delegate to
`YubiKey.set_as_primary`. -/
def set_primary_yubikey (db : DB) (user_id credential_id : String) :
    DB × Bool :=
  match YubiKey.get_by_credential_id db credential_id with
  | none => (db, false)
  | some yubikey =>
    if yubikey.user_id != user_id then (db, false)
    else YubiKey.set_as_primary db yubikey

/-- Outcome of `WebAuthnService.revoke_yubikey` (lines 336-370). -/
inductive RevokeOutcome
  /-- Credential not found (line 351): `return False`. -/
  | notFound
  /-- Credential belongs to a different user (line 354): `return False`. -/
  | ownershipMismatch
  /-- Line 357 evaluates `YubiKey.get_by_user_id(user_id)`; the `YubiKey`
  model defines no such method (its method is `get_yubikeys_by_user_id`), so
  Python raises `AttributeError` there and the promote-and-delete logic of
  lines 358-370 is unreachable. -/
  | missingMethodError
deriving Repr, DecidableEq

/-- `WebAuthnService.revoke_yubikey` (lines 336-370), translated exactly: the
lookup and ownership check succeed, after which the call to the nonexistent
`YubiKey.get_by_user_id` raises; no store mutation ever happens. -/
def revoke_yubikey (db : DB) (user_id credential_id : String) :
    DB × RevokeOutcome :=
  match YubiKey.get_by_credential_id db credential_id with
  | none => (db, .notFound)
  | some yubikey =>
    if yubikey.user_id != user_id then (db, .ownershipMismatch)
    else (db, .missingMethodError)

end WebAuthnService

/-- Injective encoding of a byte list into a natural number, used to model
the ideal (collision-free) behaviour of the external cryptographic
primitives (`cryptography.hazmat`), which are outside this repository. -/
def encodeList : List Nat → Nat
  | [] => 0
  | b :: t => Nat.pair b (encodeList t) + 1

/-- Explicit entropy source modelling `os.urandom`: an infinite byte stream
and a read position. -/
structure Entropy where
  stream : Nat → Nat
  pos : Nat

/-- `os.urandom(n)`: read `n` bytes from the entropy stream and advance. -/
def urandom (n : Nat) (r : Entropy) : List Nat × Entropy :=
  ((List.range n).map (fun i => r.stream (r.pos + i) % 256),
   { r with pos := r.pos + n })

/-- An AES-256-GCM ciphertext, modelled as an ideal AEAD: the body is the
plaintext combined with a keystream, and `tag` is a perfectly binding
authentication tag over (key, nonce, body).  (The real GCM tag fails to
authenticate a modified input only with overwhelming probability; the ideal
model makes that deterministic.) -/
structure GCMCiphertext where
  body : List Nat
  tag : Nat
deriving Repr, DecidableEq

/-- Ideal keystream byte `i` for a key/nonce pair. -/
def keystream (key : Nat) (nonce : List Nat) (i : Nat) : Nat :=
  (key + encodeList nonce + i) % 256

/-- XOR a byte list against the keystream starting at position `i`;
involutive, which models CTR-mode en/decryption. -/
def xorStream (key : Nat) (nonce : List Nat) : Nat → List Nat → List Nat
  | _, [] => []
  | i, b :: t => (b ^^^ keystream key nonce i) :: xorStream key nonce (i + 1) t

/-- Ideal authentication tag binding key, nonce and ciphertext body. -/
def tagOf (key : Nat) (nonce : List Nat) (body : List Nat) : Nat :=
  Nat.pair key (Nat.pair (encodeList nonce) (encodeList body))

/-- `AESGCM(key).encrypt(nonce, plaintext, None)` in the ideal model. -/
def aesgcmEncrypt (key : Nat) (nonce : List Nat) (plaintext : List Nat) :
    GCMCiphertext :=
  { body := xorStream key nonce 0 plaintext
    tag := tagOf key nonce (xorStream key nonce 0 plaintext) }

/-- `AESGCM(key).decrypt(nonce, ciphertext, None)` in the ideal model:
`none` models the `InvalidTag` exception. -/
def aesgcmDecrypt (key : Nat) (nonce : List Nat) (c : GCMCiphertext) :
    Option (List Nat) :=
  if c.tag = tagOf key nonce c.body then some (xorStream key nonce 0 c.body)
  else none

namespace EncryptionService

/-- `EncryptionService._derive_key` (`src/backend/services/encryption_service.py`
lines 38-55): PBKDF2-HMAC-SHA256(password, salt, 100000 iterations, 32 bytes),
modelled as an ideal collision-free KDF of the (password, salt) pair. -/
def derive_key (encryption_key salt : List Nat) : Nat :=
  Nat.pair (encodeList encryption_key) (encodeList salt)

/-- The envelope stored per username in the seeds file: per-encryption salt,
per-encryption nonce and the AEAD ciphertext (the source stores the three as
hex strings; the hex codec is a bijection on bytes and is elided). -/
structure SeedEnvelope where
  salt : List Nat
  nonce : List Nat
  ciphertext : GCMCiphertext
deriving Repr, DecidableEq

/-- The `self.seeds` JSON dict: username → envelope.  A dict assignment is
modelled by prepending; `List.lookup` returns the most recent binding. -/
def Seeds := List (String × SeedEnvelope)

/-- `EncryptionService.store_encrypted_seed` (lines 57-95): draw a fresh
16-byte salt, derive the key, draw a fresh 12-byte nonce *inside the call*
(the nonce is not a parameter), encrypt, store the envelope under the
username.  The source then returns `{'success': True}`; only the updated
store and entropy state are observable here. -/
def store_encrypted_seed (seeds : Seeds) (username : String)
    (mnemonic encryption_key : List Nat) (r : Entropy) : Seeds × Entropy :=
  let saltDraw := urandom 16 r
  let key := derive_key encryption_key saltDraw.1
  let nonceDraw := urandom 12 saltDraw.2
  let ciphertext := aesgcmEncrypt key nonceDraw.1 mnemonic
  ((username, { salt := saltDraw.1, nonce := nonceDraw.1,
                ciphertext := ciphertext }) :: seeds, nonceDraw.2)

/-- Outcome of `EncryptionService.retrieve_encrypted_seed` (lines 97-130). -/
inductive RetrieveResult
  /-- `{'success': True, 'mnemonic': ...}`. -/
  | success (mnemonic : List Nat)
  /-- `{'success': False, 'error': 'No seed found for this user'}`. -/
  | noSeedFound
  /-- The single generic `{'success': False, 'error': 'Invalid encryption
  key or corrupted data'}` produced by the `except` clause for every
  decryption failure. -/
  | decryptionFailed
deriving Repr, DecidableEq

/-- `EncryptionService.retrieve_encrypted_seed` (lines 97-130): look the
envelope up, re-derive the key from the stored salt, decrypt; any failure in
the `try` block collapses to the one generic error. -/
def retrieve_encrypted_seed (seeds : Seeds) (username : String)
    (encryption_key : List Nat) : RetrieveResult :=
  match List.lookup username seeds with
  | none => .noSeedFound
  | some envelope =>
    let key := derive_key encryption_key envelope.salt
    match aesgcmDecrypt key envelope.nonce envelope.ciphertext with
    | some mnemonic => .success mnemonic
    | none => .decryptionFailed

end EncryptionService

namespace CryptoService

/-- The versioned envelope built by `encrypt_seed`
(`src/backend/services/crypto_service.py` lines 82-123); the JSON and base64
serialisation is a bijection and is elided. -/
structure CryptoEnvelope where
  version : Nat
  algorithm : String
  nonce : List Nat
  ciphertext : GCMCiphertext
  salt : Option (List Nat)
deriving Repr, DecidableEq

/-- `get_encryption_key` (lines 21-80) on the default `HKDF-SHA256` path:
derive a 256-bit key from the configured master key and a salt that is taken
from the context when present and freshly drawn otherwise; HKDF-SHA256 is
modelled as an ideal collision-free KDF. -/
def get_encryption_key (master_key : List Nat)
    (encryption_context : Option (List Nat)) (r : Entropy) :
    Nat × Option (List Nat) × Entropy :=
  match encryption_context with
  | some salt => (Nat.pair (encodeList master_key) (encodeList salt), none, r)
  | none =>
    let saltDraw := urandom 16 r
    (Nat.pair (encodeList master_key) (encodeList saltDraw.1),
     some saltDraw.1, saltDraw.2)

/-- `encrypt_seed` (lines 82-123): fresh key material, a fresh 12-byte nonce
drawn inside the call, AES-GCM encryption, and the versioned envelope. -/
def encrypt_seed (master_key seed_phrase : List Nat) (r : Entropy) :
    CryptoEnvelope × Entropy :=
  let keyDraw := get_encryption_key master_key none r
  let nonceDraw := urandom 12 keyDraw.2.2
  let ciphertext := aesgcmEncrypt keyDraw.1 nonceDraw.1 seed_phrase
  ({ version := 1, algorithm := "AES-256-GCM", nonce := nonceDraw.1,
     ciphertext := ciphertext, salt := keyDraw.2.1 }, nonceDraw.2)

/-- `decrypt_seed` (lines 125-158): rebuild the context from the envelope's
salt, re-derive the key, decrypt; `none` models the propagated `InvalidTag`
exception of `AESGCM.decrypt`. -/
def decrypt_seed (master_key : List Nat) (e : CryptoEnvelope) (r : Entropy) :
    Option (List Nat) :=
  let keyDraw := get_encryption_key master_key e.salt r
  aesgcmDecrypt keyDraw.1 e.nonce e.ciphertext

end CryptoService

namespace WebAuthnManager

/-- A credential record as written by `WebAuthnManager._store_credential`
(`src/yubikey_utils.py` lines 352-379). -/
structure StoredCred where
  credential_id : String
  public_key : String
  sign_count : Nat
  registered_at : Nat
deriving Repr, DecidableEq

/-- The JSON credentials file: the `challenges` dict (subject → pending
challenge) and the `users` dict (subject → stored credential). -/
structure CredFile where
  challenges : List (String × String)
  users : List (String × StoredCred)
deriving Repr, DecidableEq

/-- `WebAuthnManager._get_challenge` (lines 242-264). -/
def get_challenge (s : CredFile) (user_id : String) : Option String :=
  List.lookup user_id s.challenges

/-- `WebAuthnManager._remove_challenge` (lines 381-395): drop the entry for
`user_id` from the `challenges` dict. -/
def remove_challenge (s : CredFile) (user_id : String) : CredFile :=
  { s with challenges := s.challenges.filter (fun p => !(p.1 == user_id)) }

/-- The verified registration returned by the external WebAuthn library's
`verify_registration_response` (an out-of-scope collaborator). -/
structure VerifiedRegistration where
  credential_id : String
  credential_public_key : String
  sign_count : Nat
deriving Repr, DecidableEq

/-- `WebAuthnManager._store_credential` (lines 352-379): write the verified
credential into the `users` dict. -/
def store_credential (s : CredFile) (user_id : String)
    (v : VerifiedRegistration) (now : Nat) : CredFile :=
  { s with
    users := (user_id,
      { credential_id := v.credential_id,
        public_key := v.credential_public_key, sign_count := v.sign_count,
        registered_at := now }) :: s.users }

/-- Outcome of `WebAuthnManager.verify_registration_response`
(lines 266-350). -/
inductive RegVerifyResult
  /-- `{"verified": True, "credential_id": ...}`. -/
  | verified (credential_id : String)
  /-- `raise ValueError("Challenge not found for user")` (line 280). -/
  | challengeNotFound
  /-- Any exception inside the `try` block (library verification failure or
  malformed base64) is re-raised as `ValueError` (line 350). -/
  | verificationError
deriving Repr, DecidableEq

/-- `WebAuthnManager.verify_registration_response` (lines 266-350).  The
external library call is modelled by the `outcome` parameter: `some v` for a
successful verification, `none` for a verification exception.  On success the
credential is stored and then the challenge removed; on failure the exception
propagates before `_remove_challenge` is reached, so the file is untouched
and the challenge stays pending. -/
def verify_registration_response (s : CredFile) (user_id : String)
    (outcome : Option VerifiedRegistration) (now : Nat) :
    CredFile × RegVerifyResult :=
  match get_challenge s user_id with
  | none => (s, .challengeNotFound)
  | some _ =>
    match outcome with
    | none => (s, .verificationError)
    | some v =>
      let s1 := store_credential s user_id v now
      let s2 := remove_challenge s1 user_id
      (s2, .verified v.credential_id)

end WebAuthnManager

/-- Clone-detection invariant of the spec: for every user, at most one
stored credential carries `is_primary = true`. -/
def atMostOnePrimary (db : DB) : Prop :=
  ∀ uid : String,
    db.yubikeys.countP (fun r => r.user_id == uid && r.is_primary) ≤ 1

/-- Well-formedness maintained by the `credential_id TEXT PRIMARY KEY`
constraint: stored credential ids are pairwise distinct. -/
def credIdsNodup (db : DB) : Prop :=
  (db.yubikeys.map YubiKeyRow.credential_id).Nodup

/-- A sample user for concrete witnesses. -/
def sampleUser : UserRow :=
  { user_id := "u1", username := "alice", creation_date := 0,
    last_login := none, max_yubikeys := 5 }

/-- A sample primary credential of `sampleUser` for concrete witnesses. -/
def sampleKeyA : YubiKeyRow :=
  { credential_id := "credA", user_id := "u1", public_key := [1],
    nickname := "keyA", aaguid := none, sign_count := 4, is_primary := true,
    created_at := 1, last_used := none }

/-- A second, non-primary credential of `sampleUser`. -/
def sampleKeyB : YubiKeyRow :=
  { credential_id := "credB", user_id := "u1", public_key := [2],
    nickname := "keyB", aaguid := none, sign_count := 0, is_primary := false,
    created_at := 2, last_used := none }

/-- A store holding `sampleUser` with its one credential `sampleKeyA`. -/
def sampleDB1 : DB :=
  { users := [sampleUser], yubikeys := [sampleKeyA] }

/-- A store holding `sampleUser` with credentials `sampleKeyA` (primary)
and `sampleKeyB`. -/
def sampleDB2 : DB :=
  { users := [sampleUser], yubikeys := [sampleKeyA, sampleKeyB] }

/-- A deterministic sample entropy stream for concrete witnesses. -/
def sampleRand : Entropy :=
  { stream := fun i => i, pos := 0 }

/-- A sample user whose credential capacity (1) is already reached in
`sampleDBFull`. -/
def sampleUserSmall : UserRow :=
  { user_id := "u2", username := "bob", creation_date := 0,
    last_login := none, max_yubikeys := 1 }

/-- The single credential of `sampleUserSmall`. -/
def sampleKeyC : YubiKeyRow :=
  { credential_id := "credC", user_id := "u2", public_key := [3],
    nickname := "keyC", aaguid := none, sign_count := 0, is_primary := true,
    created_at := 1, last_used := none }

/-- A store in which `sampleUserSmall` is at credential capacity. -/
def sampleDBFull : DB :=
  { users := [sampleUserSmall], yubikeys := [sampleKeyC] }

/-- A concrete honestly-encrypted envelope (password `[1]`, plaintext
`[7, 8]`) for the tamper-rejection witnesses. -/
def sampleEnvelope : EncryptionService.SeedEnvelope :=
  { salt := [0, 1, 2], nonce := [3, 4],
    ciphertext := aesgcmEncrypt
      (EncryptionService.derive_key [1] [0, 1, 2]) [3, 4] [7, 8] }

/-- A credentials file holding one pending challenge for user `u1`. -/
def sampleCredFile : WebAuthnManager.CredFile :=
  { challenges := [("u1", "chal1")], users := [] }

/-- A sample verified-registration result from the external library. -/
def sampleVerifiedReg : WebAuthnManager.VerifiedRegistration :=
  { credential_id := "credX", credential_public_key := "pkX", sign_count := 3 }

/-- Claim C1: for a stored credential with signature counter `n`,
`update_sign_count m` with `m ≤ n` returns failure and leaves all stored
state unchanged (the stored counter is still `n`, `last_used` untouched),
while `m > n` succeeds and sets the stored counter of that credential to
`m`. -/
theorem update_sign_count_spec (db : DB) (self : YubiKeyRow) (m now : Nat)
    (hmem : self ∈ db.yubikeys) :
    (m ≤ self.sign_count →
      YubiKey.update_sign_count db self m now = (db, self, false)) ∧
    (self.sign_count < m →
      (YubiKey.update_sign_count db self m now).2.2 = true ∧
      ∀ r ∈ (YubiKey.update_sign_count db self m now).1.yubikeys,
        r.credential_id = self.credential_id →
          r.sign_count = m ∧ r.last_used = some now) := by
  constructor
  · intro hle
    simp [YubiKey.update_sign_count, hle]
  · intro hlt
    have hnle : ¬ m ≤ self.sign_count := not_le.mpr hlt
    refine ⟨by simp [YubiKey.update_sign_count, hnle, YubiKey.update], ?_⟩
    intro r hr hcid
    simp only [YubiKey.update_sign_count, hnle, if_false, YubiKey.update] at hr
    rcases List.mem_map.mp hr with ⟨r0, _, hr0⟩
    by_cases h : r0.credential_id == self.credential_id
    · simp [h] at hr0
      subst hr0
      simp
    · simp [h] at hr0
      subst hr0
      exact absurd (by exact beq_iff_eq.mpr hcid) (by simpa using h)

/-- Witness for C1 at a concrete store. -/
theorem update_sign_count_spec_witness :
    (YubiKey.update_sign_count sampleDB1 sampleKeyA 3 9).2.2 = false := by
  have h := (update_sign_count_spec sampleDB1 sampleKeyA 3 9
    (by simp [sampleDB1])).1 (by decide)
  rw [h]

/-- Clearing the primary flags of one user's rows rewrites rows in place and
preserves every per-user row count (list level). -/
theorem countP_user_map_clear (l : List YubiKeyRow) (uid uid' : String) :
    (l.map (fun r =>
        if r.user_id == uid' then { r with is_primary := false } else r)).countP
      (fun r => r.user_id == uid) = l.countP (fun r => r.user_id == uid) := by
  rw [List.countP_map]
  refine List.countP_congr ?_
  intro r _
  by_cases h : r.user_id = uid' <;> simp [Function.comp, h]

/-- `clear_primaries` does not change any user's credential count. -/
theorem count_clear_primaries (db : DB) (uid uid' : String) :
    User.count_yubikeys (YubiKey.clear_primaries db uid') uid
      = User.count_yubikeys db uid := by
  simpa only [User.count_yubikeys, YubiKey.clear_primaries]
    using countP_user_map_clear db.yubikeys uid uid'

/-- `YubiKey.create` either leaves the target user's credential count
unchanged, or increments it by one — and the latter only when the capacity
check passed. -/
theorem count_yubikeys_create_cases (db : DB) (cid uid : String)
    (pk : List Nat) (nick : String) (ag : Option String) (sc : Nat)
    (isp : Bool) (now : Nat) :
    User.count_yubikeys (YubiKey.create db cid uid pk nick ag sc isp now).1 uid
        = User.count_yubikeys db uid ∨
    (User.count_yubikeys
        (YubiKey.create db cid uid pk nick ag sc isp now).1 uid
        = User.count_yubikeys db uid + 1 ∧
      ∃ u, User.get_by_id db uid = some u ∧
        User.can_register_yubikey db u = true) := by
  cases hu : User.get_by_id db uid with
  | none => left; simp [YubiKey.create, hu]
  | some u =>
    cases hcan : User.can_register_yubikey db u with
    | false => left; simp [YubiKey.create, hu, hcan]
    | true =>
      cases hp : isp with
      | true =>
        cases hdup : ((YubiKey.clear_primaries db uid).yubikeys.any
            (fun r => r.credential_id == cid)) with
        | true =>
          left
          simp only [YubiKey.create, hu, hcan, Bool.not_true,
            Bool.false_eq_true, if_false, hp, if_true, hdup]
          simpa only [User.count_yubikeys, YubiKey.clear_primaries]
            using countP_user_map_clear db.yubikeys uid uid
        | false =>
          right
          refine ⟨?_, u, rfl, hcan⟩
          simp only [YubiKey.create, hu, hcan, Bool.not_true,
            Bool.false_eq_true, if_false, hp, if_true, hdup]
          simp only [User.count_yubikeys, YubiKey.clear_primaries,
            List.countP_append, List.countP_cons, List.countP_nil]
          rw [countP_user_map_clear db.yubikeys uid uid]
          simp
      | false =>
        cases hdup : (db.yubikeys.any (fun r => r.credential_id == cid)) with
        | true => left; simp [YubiKey.create, hu, hcan, hp, hdup]
        | false =>
          right
          refine ⟨?_, u, rfl, hcan⟩
          simp only [YubiKey.create, hu, hcan, Bool.not_true,
            Bool.false_eq_true, if_false, hp, hdup]
          simp [User.count_yubikeys, List.countP_append]

/-- Claim C3: deleting a user's only remaining credential always fails and
leaves the credential stored; deleting a non-primary credential when the user
has at least two always succeeds; a primary credential cannot be deleted
unless another of the user's credentials is primary. -/
theorem delete_spec (db : DB) (self : YubiKeyRow) (hmem : self ∈ db.yubikeys) :
    ((YubiKey.get_yubikeys_by_user_id db self.user_id).length = 1 →
      YubiKey.delete db self = (db, false)) ∧
    (self.is_primary = false →
      2 ≤ (YubiKey.get_yubikeys_by_user_id db self.user_id).length →
      (YubiKey.delete db self).2 = true) ∧
    (self.is_primary = true →
      (∀ r ∈ YubiKey.get_yubikeys_by_user_id db self.user_id,
        r.credential_id ≠ self.credential_id → r.is_primary = false) →
      YubiKey.delete db self = (db, false)) := by
  refine ⟨?_, ?_, ?_⟩
  · intro hlen
    simp [YubiKey.delete, hlen]
  · intro hprim hlen
    have h1 : ¬ (YubiKey.get_yubikeys_by_user_id db self.user_id).length ≤ 1 := by
      omega
    simp only [YubiKey.delete, if_neg h1, hprim, Bool.false_and,
      Bool.false_eq_true, if_false]
    simp only [decide_eq_true_eq]
    rw [List.countP_pos_iff]
    exact ⟨self, hmem, by simp⟩
  · intro hprim hno
    by_cases h1 : (YubiKey.get_yubikeys_by_user_id db self.user_id).length ≤ 1
    · simp [YubiKey.delete, h1]
    · have hany : (YubiKey.get_yubikeys_by_user_id db self.user_id).any
          (fun r => r.credential_id != self.credential_id && r.is_primary)
            = false := by
        rw [List.any_eq_false]
        intro r hr
        by_cases hc : r.credential_id = self.credential_id
        · simp [hc]
        · simp [hc, hno r hr hc]
      simp [YubiKey.delete, h1, hprim, hany]

/-- Witness for C3: with two credentials stored, deleting the non-primary one
succeeds, and deleting the primary one (no other primary) is refused. -/
theorem delete_spec_witness :
    (YubiKey.delete sampleDB2 sampleKeyB).2 = true ∧
    YubiKey.delete sampleDB2 sampleKeyA = (sampleDB2, false) := by
  constructor
  · exact (delete_spec sampleDB2 sampleKeyB (by simp [sampleDB2])).2.1
      (by decide) (by decide)
  · exact (delete_spec sampleDB2 sampleKeyA (by simp [sampleDB2])).2.2
      (by decide) (by decide)

/-- Claim C10: `User.create` with a username that already exists in the store
returns no user and leaves the stored users unchanged (the `username UNIQUE`
constraint makes the INSERT fail). -/
theorem user_create_duplicate_username (db : DB) (username : String)
    (mk : Nat) (uid : String) (now : Nat)
    (h : ∃ u ∈ db.users, u.username = username) :
    User.create db username mk uid now = (db, none) := by
  obtain ⟨u, hu, he⟩ := h
  have hany : db.users.any
      (fun v => v.username == username || v.user_id == uid) = true :=
    List.any_eq_true.mpr ⟨u, hu, by simp [he]⟩
  simp [User.create, hany]

/-- Witness for C10: creating a second "alice" fails and changes nothing. -/
theorem user_create_duplicate_username_witness :
    User.create sampleDB1 "alice" 5 "u99" 7 = (sampleDB1, none) :=
  user_create_duplicate_username sampleDB1 "alice" 5 "u99" 7
    ⟨sampleUser, by simp [sampleDB1], rfl⟩

/-- Claim C5: `generate_registration_options` fails with the capacity error
exactly when the user already holds their maximum number of credentials;
`YubiKey.create` refuses to insert for a user at capacity, so a user's
credential count never exceeds their maximum. -/
theorem registration_capacity_spec (db : DB) (uid : String) (u : UserRow)
    (hu : User.get_by_id db uid = some u) :
    (WebAuthnService.generate_registration_options db uid
        = .capacityExceeded ↔
      u.max_yubikeys ≤ User.count_yubikeys db uid) ∧
    (∀ cid pk nick ag sc isp now,
      u.max_yubikeys ≤ User.count_yubikeys db uid →
      YubiKey.create db cid uid pk nick ag sc isp now = (db, none)) ∧
    (∀ cid pk nick ag sc isp now,
      User.count_yubikeys db uid ≤ u.max_yubikeys →
      User.count_yubikeys (YubiKey.create db cid uid pk nick ag sc isp now).1
        uid ≤ u.max_yubikeys) := by
  have huid : u.user_id = uid := by
    have := List.find?_some hu
    simpa using this
  refine ⟨?_, ?_, ?_⟩
  · by_cases hc : User.count_yubikeys db uid < u.max_yubikeys
    · have hres : WebAuthnService.generate_registration_options db uid
          = .missingMethodError := by
        simp [WebAuthnService.generate_registration_options, hu,
          User.can_register_yubikey, huid, hc]
      rw [hres]
      constructor
      · intro h
        exact absurd h (by simp)
      · intro h
        omega
    · have hres : WebAuthnService.generate_registration_options db uid
          = .capacityExceeded := by
        simp [WebAuthnService.generate_registration_options, hu,
          User.can_register_yubikey, huid, hc]
      rw [hres]
      simp only [true_iff]
      omega
  · intro cid pk nick ag sc isp now hfull
    have hdec : User.can_register_yubikey db u = false := by
      simp only [User.can_register_yubikey, huid, decide_eq_false_iff_not]
      omega
    simp [YubiKey.create, hu, hdec]
  · intro cid pk nick ag sc isp now hle
    rcases count_yubikeys_create_cases db cid uid pk nick ag sc isp now with
      h | ⟨h, u', hu', hcan'⟩
    · rw [h]
      exact hle
    · rw [h]
      rw [hu] at hu'
      obtain rfl : u = u' := Option.some.inj hu'
      have hlt : User.count_yubikeys db uid < u.max_yubikeys := by
        simpa [User.can_register_yubikey, huid] using hcan'
      omega

/-- Witness for C5: `sampleUserSmall` is at its capacity of 1, so options
generation reports the capacity error and a further insert is refused. -/
theorem registration_capacity_spec_witness :
    WebAuthnService.generate_registration_options sampleDBFull "u2"
      = .capacityExceeded ∧
    YubiKey.create sampleDBFull "credD" "u2" [] "" none 0 false 0
      = (sampleDBFull, none) := by
  have h := registration_capacity_spec sampleDBFull "u2" sampleUserSmall
    (by decide)
  exact ⟨h.1.mpr (by decide), h.2.1 "credD" [] "" none 0 false 0 (by decide)⟩

/-- Claim C4 (code bug): `WebAuthnService.revoke_yubikey` never reaches its
promote-and-delete logic.  With two stored credentials and a well-formed
revoke request for the primary one, the call hits the nonexistent
`YubiKey.get_by_user_id` attribute (an `AttributeError`) and no surviving
credential is promoted and nothing is deleted — contradicting the claimed
promote-then-delete behaviour, which the code only reaches in the unreachable
lines 358-370. -/
theorem revoke_yubikey_missing_method :
    WebAuthnService.revoke_yubikey sampleDB2 "u1" "credA"
      = (sampleDB2, .missingMethodError) := by decide

/-- The byte-list encoding used for the ideal cryptographic primitives is
injective. -/
theorem encodeList_inj : ∀ {l₁ l₂ : List Nat},
    encodeList l₁ = encodeList l₂ → l₁ = l₂
  | [], [], _ => rfl
  | [], _ :: _, h => by simp [encodeList] at h
  | _ :: _, [], h => by simp [encodeList] at h
  | a :: s, b :: t, h => by
    simp only [encodeList, Nat.add_right_cancel_iff] at h
    obtain ⟨h1, h2⟩ := Nat.pair_eq_pair.mp h
    rw [h1, encodeList_inj h2]

/-- The ideal authentication tag binds key, nonce and ciphertext body. -/
theorem tagOf_inj {k₁ k₂ : Nat} {n₁ n₂ b₁ b₂ : List Nat}
    (h : tagOf k₁ n₁ b₁ = tagOf k₂ n₂ b₂) : k₁ = k₂ ∧ n₁ = n₂ ∧ b₁ = b₂ := by
  unfold tagOf at h
  obtain ⟨h1, h2⟩ := Nat.pair_eq_pair.mp h
  obtain ⟨h3, h4⟩ := Nat.pair_eq_pair.mp h2
  exact ⟨h1, encodeList_inj h3, encodeList_inj h4⟩

/-- The ideal KDF of `EncryptionService` is collision-free. -/
theorem derive_key_inj {pw₁ pw₂ s₁ s₂ : List Nat}
    (h : EncryptionService.derive_key pw₁ s₁
      = EncryptionService.derive_key pw₂ s₂) : pw₁ = pw₂ ∧ s₁ = s₂ := by
  unfold EncryptionService.derive_key at h
  obtain ⟨h1, h2⟩ := Nat.pair_eq_pair.mp h
  exact ⟨encodeList_inj h1, encodeList_inj h2⟩

/-- The keystream combination is involutive (CTR-style symmetry). -/
theorem xorStream_xorStream (key : Nat) (nonce : List Nat) :
    ∀ (i : Nat) (l : List Nat),
      xorStream key nonce i (xorStream key nonce i l) = l
  | _, [] => rfl
  | i, b :: t => by
    simp only [xorStream, Nat.xor_cancel_right]
    rw [xorStream_xorStream key nonce (i + 1) t]

/-- Decryption inverts encryption in the ideal AEAD model. -/
theorem aesgcmDecrypt_encrypt (key : Nat) (nonce plaintext : List Nat) :
    aesgcmDecrypt key nonce (aesgcmEncrypt key nonce plaintext)
      = some plaintext := by
  simp [aesgcmDecrypt, aesgcmEncrypt, xorStream_xorStream]

/-- A ciphertext whose tag does not match is rejected. -/
theorem aesgcmDecrypt_bad_tag (key : Nat) (nonce : List Nat)
    (c : GCMCiphertext) (h : c.tag ≠ tagOf key nonce c.body) :
    aesgcmDecrypt key nonce c = none := by
  simp [aesgcmDecrypt, h]

/-- Setting position `i` of a list to a byte different from the one stored
there yields a different list. -/
theorem set_ne_of_ne {l : List Nat} {i b : Nat} (hi : i < l.length)
    (hb : b ≠ l.get ⟨i, hi⟩) : l.set i b ≠ l := by
  intro he
  apply hb
  have h1 : (l.set i b)[i]? = some b := List.getElem?_set_self hi
  rw [he] at h1
  have h2 : l[i]? = some (l.get ⟨i, hi⟩) := by
    simp [List.getElem?_eq_getElem, hi]
  exact Option.some.inj (h1 ▸ h2)

/-- Claim C6: storing a seed and retrieving it with the same secret material
returns exactly the original plaintext, byte for byte, for every plaintext
(any length, including 0, 1 and beyond 4KB) and every secret material. -/
theorem seed_roundtrip (seeds : EncryptionService.Seeds) (username : String)
    (mnemonic encryption_key : List Nat) (r : Entropy) :
    EncryptionService.retrieve_encrypted_seed
      (EncryptionService.store_encrypted_seed seeds username mnemonic
        encryption_key r).1 username encryption_key
      = .success mnemonic := by
  simp [EncryptionService.store_encrypted_seed,
    EncryptionService.retrieve_encrypted_seed, List.lookup,
    aesgcmDecrypt_encrypt]

/-- Claim C7: for a stored, honestly encrypted envelope, decryption after a
single-byte tamper of the ciphertext or of the nonce, or with wrong secret
material, always fails with the single generic decryption error and never
returns plaintext; the error value is identical in all three cases, so a
wrong key is indistinguishable from corrupted ciphertext.  The last conjunct
shows the same rejection for `crypto_service.decrypt_seed`. -/
theorem seed_tamper_rejected (seeds : EncryptionService.Seeds)
    (username : String) (encryption_key : List Nat)
    (env : EncryptionService.SeedEnvelope)
    (hhonest : env.ciphertext.tag
      = tagOf (EncryptionService.derive_key encryption_key env.salt)
          env.nonce env.ciphertext.body) :
    (∀ (i b : Nat) (hi : i < env.ciphertext.body.length),
      b ≠ env.ciphertext.body.get ⟨i, hi⟩ →
      EncryptionService.retrieve_encrypted_seed
        ((username,
          { env with ciphertext :=
              { env.ciphertext with
                body := env.ciphertext.body.set i b } }) :: seeds)
        username encryption_key = .decryptionFailed) ∧
    (∀ (i b : Nat) (hi : i < env.nonce.length),
      b ≠ env.nonce.get ⟨i, hi⟩ →
      EncryptionService.retrieve_encrypted_seed
        ((username, { env with nonce := env.nonce.set i b }) :: seeds)
        username encryption_key = .decryptionFailed) ∧
    (∀ wrong_key : List Nat, wrong_key ≠ encryption_key →
      EncryptionService.retrieve_encrypted_seed ((username, env) :: seeds)
        username wrong_key = .decryptionFailed) ∧
    (∀ (e : CryptoService.CryptoEnvelope) (master salt : List Nat)
        (r : Entropy) (i b : Nat) (hi : i < e.ciphertext.body.length),
      e.salt = some salt →
      e.ciphertext.tag
        = tagOf (Nat.pair (encodeList master) (encodeList salt)) e.nonce
            e.ciphertext.body →
      b ≠ e.ciphertext.body.get ⟨i, hi⟩ →
      CryptoService.decrypt_seed master
        { e with ciphertext :=
            { e.ciphertext with body := e.ciphertext.body.set i b } } r
        = none) := by
  refine ⟨?_, ?_, ?_, ?_⟩
  · intro i b hi hb
    have hne : env.ciphertext.body.set i b ≠ env.ciphertext.body :=
      set_ne_of_ne hi hb
    have htag : env.ciphertext.tag
        ≠ tagOf (EncryptionService.derive_key encryption_key env.salt)
            env.nonce (env.ciphertext.body.set i b) := by
      rw [hhonest]
      intro h
      exact hne (tagOf_inj h.symm).2.2
    simp [EncryptionService.retrieve_encrypted_seed, List.lookup,
      aesgcmDecrypt, htag]
  · intro i b hi hb
    have hne : env.nonce.set i b ≠ env.nonce := set_ne_of_ne hi hb
    have htag : env.ciphertext.tag
        ≠ tagOf (EncryptionService.derive_key encryption_key env.salt)
            (env.nonce.set i b) env.ciphertext.body := by
      rw [hhonest]
      intro h
      exact hne (tagOf_inj h.symm).2.1
    simp [EncryptionService.retrieve_encrypted_seed, List.lookup,
      aesgcmDecrypt, htag]
  · intro wrong_key hk
    have htag : env.ciphertext.tag
        ≠ tagOf (EncryptionService.derive_key wrong_key env.salt)
            env.nonce env.ciphertext.body := by
      rw [hhonest]
      intro h
      exact hk (derive_key_inj (tagOf_inj h.symm).1).1
    simp [EncryptionService.retrieve_encrypted_seed, List.lookup,
      aesgcmDecrypt, htag]
  · intro e master salt r i b hi hsalt htg hb
    have hne : e.ciphertext.body.set i b ≠ e.ciphertext.body :=
      set_ne_of_ne hi hb
    have htag : e.ciphertext.tag
        ≠ tagOf (Nat.pair (encodeList master) (encodeList salt)) e.nonce
            (e.ciphertext.body.set i b) := by
      rw [htg]
      intro h
      exact hne (tagOf_inj h.symm).2.2
    simp [CryptoService.decrypt_seed, CryptoService.get_encryption_key, hsalt,
      aesgcmDecrypt, htag]

/-- Witness for C7: tampering the first ciphertext byte of a concrete
envelope, and decrypting it with a wrong key, both yield the generic
failure. -/
theorem seed_tamper_rejected_witness :
    EncryptionService.retrieve_encrypted_seed
      (("alice",
        { sampleEnvelope with ciphertext :=
            { sampleEnvelope.ciphertext with
              body := sampleEnvelope.ciphertext.body.set 0 5 } }) :: [])
      "alice" [1] = .decryptionFailed ∧
    EncryptionService.retrieve_encrypted_seed (("alice", sampleEnvelope) :: [])
      "alice" [2] = .decryptionFailed := by
  have h := seed_tamper_rejected [] "alice" [1] sampleEnvelope (by decide)
  exact ⟨h.1 0 5 (by decide) (by decide), h.2.2.1 [2] (by decide)⟩

/-- Claim C8: the nonce of a stored envelope is drawn inside
`store_encrypted_seed` from the entropy source alone — it is identical for
calls that differ in every caller-supplied argument (no nonce parameter
exists) — and two successive calls with the same plaintext and secret
material whose entropy draws differ store different nonces and different
ciphertexts. -/
theorem store_fresh_nonce (seeds₁ seeds₂ seeds : EncryptionService.Seeds)
    (u₁ u₂ u : String) (m₁ m₂ m k₁ k₂ k : List Nat) (r : Entropy) :
    (((EncryptionService.store_encrypted_seed seeds₁ u₁ m₁ k₁ r).1.lookup u₁
        |>.map EncryptionService.SeedEnvelope.nonce)
      = ((EncryptionService.store_encrypted_seed seeds₂ u₂ m₂ k₂ r).1.lookup u₂
        |>.map EncryptionService.SeedEnvelope.nonce)) ∧
    ((urandom 12 (urandom 16 r).2).1
        ≠ (urandom 12 (urandom 16
            (EncryptionService.store_encrypted_seed seeds u m k r).2).2).1 →
      (((EncryptionService.store_encrypted_seed
          (EncryptionService.store_encrypted_seed seeds u m k r).1 u m k
          (EncryptionService.store_encrypted_seed seeds u m k r).2).1.lookup u
            |>.map EncryptionService.SeedEnvelope.nonce)
          ≠ ((EncryptionService.store_encrypted_seed seeds u m k r).1.lookup u
            |>.map EncryptionService.SeedEnvelope.nonce)) ∧
      (((EncryptionService.store_encrypted_seed
          (EncryptionService.store_encrypted_seed seeds u m k r).1 u m k
          (EncryptionService.store_encrypted_seed seeds u m k r).2).1.lookup u
            |>.map EncryptionService.SeedEnvelope.ciphertext)
          ≠ ((EncryptionService.store_encrypted_seed seeds u m k r).1.lookup u
            |>.map EncryptionService.SeedEnvelope.ciphertext))) := by
  constructor
  · simp [EncryptionService.store_encrypted_seed, List.lookup]
  · intro hdraw
    constructor
    · simp only [EncryptionService.store_encrypted_seed, List.lookup,
        beq_self_eq_true, if_true, Option.map_some']
      simpa using fun h => hdraw h.symm
    · simp only [EncryptionService.store_encrypted_seed, List.lookup,
        beq_self_eq_true, if_true, Option.map_some']
      simp only [ne_eq, Option.some.injEq]
      intro h
      have h2 := congrArg GCMCiphertext.tag h
      simp only [aesgcmEncrypt] at h2
      exact hdraw ((tagOf_inj h2).2.1).symm

/-- Witness for C8: with the identity entropy stream the two successive
draws differ, so the two stored envelopes have different nonces and
ciphertexts (and nonces agree across unrelated calls sharing entropy
state). -/
theorem store_fresh_nonce_witness :
    (((EncryptionService.store_encrypted_seed [] "a" [7] [9] sampleRand).1.lookup "a"
        |>.map EncryptionService.SeedEnvelope.nonce)
      = ((EncryptionService.store_encrypted_seed [("z", sampleEnvelope)] "b"
          [1, 2, 3] [4] sampleRand).1.lookup "b"
        |>.map EncryptionService.SeedEnvelope.nonce)) ∧
    (((EncryptionService.store_encrypted_seed
        (EncryptionService.store_encrypted_seed [] "a" [7] [9] sampleRand).1
        "a" [7] [9]
        (EncryptionService.store_encrypted_seed [] "a" [7] [9] sampleRand).2).1.lookup "a"
          |>.map EncryptionService.SeedEnvelope.nonce)
        ≠ ((EncryptionService.store_encrypted_seed [] "a" [7] [9] sampleRand).1.lookup "a"
          |>.map EncryptionService.SeedEnvelope.nonce)) := by
  have h := store_fresh_nonce [] [("z", sampleEnvelope)] [] "a" "b" "a"
    [7] [1, 2, 3] [7] [9] [4] [9] sampleRand
  exact ⟨h.1, (h.2 (by decide)).1⟩

/-- With pairwise-distinct credential ids, two stored rows sharing a
credential id are the same row. -/
theorem eq_of_mem_nodup_credIds {l : List YubiKeyRow}
    (hnd : (l.map YubiKeyRow.credential_id).Nodup) :
    ∀ {a b : YubiKeyRow}, a ∈ l → b ∈ l →
      a.credential_id = b.credential_id → a = b := by
  induction l with
  | nil =>
    intro a b ha _ _
    exact absurd ha (List.not_mem_nil a)
  | cons x t ih =>
    simp only [List.map_cons, List.nodup_cons] at hnd
    intro a b ha hb hab
    rcases List.mem_cons.mp ha with rfl | ha'
    · rcases List.mem_cons.mp hb with rfl | hb'
      · rfl
      · exfalso
        apply hnd.1
        rw [hab]
        exact List.mem_map_of_mem YubiKeyRow.credential_id hb'
    · rcases List.mem_cons.mp hb with rfl | hb'
      · exfalso
        apply hnd.1
        rw [← hab]
        exact List.mem_map_of_mem YubiKeyRow.credential_id ha'
      · exact ih hnd.2 ha' hb' hab

/-- After clearing one user's primary flags, that user has no primary rows
and every other user's primary count is unchanged (list level). -/
theorem countP_primary_clear (l : List YubiKeyRow) (uid uid' : String) :
    (l.map (fun r =>
        if r.user_id == uid then { r with is_primary := false } else r)).countP
      (fun r => r.user_id == uid' && r.is_primary)
    = if uid' = uid then 0
      else l.countP (fun r => r.user_id == uid' && r.is_primary) := by
  rw [List.countP_map]
  by_cases h : uid' = uid
  · subst h
    rw [if_pos rfl]
    rw [List.countP_eq_zero]
    intro r _
    by_cases hcu : r.user_id = uid' <;> simp [Function.comp, hcu]
  · rw [if_neg h]
    refine List.countP_congr ?_
    intro r _
    by_cases hcu : r.user_id = uid
    · simp [Function.comp, hcu, Ne.symm h]
    · simp [Function.comp, hcu]

/-- At most one primary credential per user is preserved by
`YubiKey.create`. -/
theorem create_at_most_one (db : DB) (hinv : atMostOnePrimary db)
    (cid uid : String) (pk : List Nat) (nick : String) (ag : Option String)
    (sc : Nat) (isp : Bool) (now : Nat) :
    atMostOnePrimary (YubiKey.create db cid uid pk nick ag sc isp now).1 := by
  intro uid'
  cases hu : User.get_by_id db uid with
  | none => simpa [YubiKey.create, hu] using hinv uid'
  | some u =>
    cases hcan : User.can_register_yubikey db u with
    | false => simpa [YubiKey.create, hu, hcan] using hinv uid'
    | true =>
      cases hp : isp with
      | false =>
        cases hdup : (db.yubikeys.any (fun r => r.credential_id == cid)) with
        | true => simpa [YubiKey.create, hu, hcan, hp, hdup] using hinv uid'
        | false =>
          simp only [YubiKey.create, hu, hcan, Bool.not_true,
            Bool.false_eq_true, if_false, hp, hdup]
          simp only [List.countP_append, List.countP_cons, List.countP_nil,
            Bool.and_false]
          simpa using hinv uid'
      | true =>
        cases hdup : ((YubiKey.clear_primaries db uid).yubikeys.any
            (fun r => r.credential_id == cid)) with
        | true =>
          simp only [YubiKey.create, hu, hcan, Bool.not_true,
            Bool.false_eq_true, if_false, hp, if_true, hdup]
          simp only [YubiKey.clear_primaries]
          rw [countP_primary_clear]
          by_cases h : uid' = uid
          · simp [h]
          · simpa [h] using hinv uid'
        | false =>
          simp only [YubiKey.create, hu, hcan, Bool.not_true,
            Bool.false_eq_true, if_false, hp, if_true, hdup]
          simp only [YubiKey.clear_primaries, List.countP_append,
            List.countP_cons, List.countP_nil]
          rw [countP_primary_clear]
          by_cases h : uid' = uid
          · simp [h]
          · simpa [h, Ne.symm h] using hinv uid'

/-- At most one primary credential per user is preserved by
`YubiKey.set_as_primary` applied to a stored row. -/
theorem set_as_primary_at_most_one (db : DB) (yk : YubiKeyRow)
    (hmem : yk ∈ db.yubikeys) (hnd : credIdsNodup db)
    (hinv : atMostOnePrimary db) :
    atMostOnePrimary (YubiKey.set_as_primary db yk).1 := by
  intro uid
  simp only [YubiKey.set_as_primary, YubiKey.clear_primaries, List.map_map]
  rw [List.countP_map]
  by_cases huid : uid = yk.user_id
  · rw [huid]
    have hle : db.yubikeys.countP
        ((fun r => r.user_id == yk.user_id && r.is_primary) ∘
          ((fun r => if r.credential_id == yk.credential_id then
              { r with is_primary := true } else r) ∘
           (fun r => if r.user_id == yk.user_id then
              { r with is_primary := false } else r)))
        ≤ db.yubikeys.countP
            (fun r => r.credential_id == yk.credential_id) := by
      refine List.countP_mono_left ?_
      intro r _ hr
      by_cases hcc : r.credential_id = yk.credential_id
      · simp [hcc]
      · exfalso
        by_cases hcu : r.user_id = yk.user_id <;>
          simp [Function.comp, hcc, hcu] at hr
    refine le_trans hle ?_
    have h3 := List.nodup_iff_count_le_one.mp hnd yk.credential_id
    rw [List.count_eq_countP, List.countP_map] at h3
    exact le_trans (le_of_eq (List.countP_congr (by
      intro r _
      simp [Function.comp]))) h3
  · have hle : db.yubikeys.countP
        ((fun r => r.user_id == uid && r.is_primary) ∘
          ((fun r => if r.credential_id == yk.credential_id then
              { r with is_primary := true } else r) ∘
           (fun r => if r.user_id == yk.user_id then
              { r with is_primary := false } else r)))
        ≤ db.yubikeys.countP (fun r => r.user_id == uid && r.is_primary) := by
      refine List.countP_mono_left ?_
      intro r hrm hr
      by_cases hcc : r.credential_id = yk.credential_id
      · exfalso
        have hryk : r = yk := eq_of_mem_nodup_credIds hnd hrm hmem hcc
        subst hryk
        by_cases hcu : r.user_id = uid <;>
          simp [Function.comp, hcc, hcu] at hr
        · exact huid hcu.symm
      · by_cases hcu : r.user_id = yk.user_id
        · exfalso
          simp [Function.comp, hcc, hcu] at hr
        · simpa [Function.comp, hcc, hcu] using hr
    exact le_trans hle (hinv uid)

/-- Claim C2: starting from a store with pairwise-distinct credential ids
and at most one primary credential per user, both mutating operations —
`YubiKey.create` and `set_primary_yubikey` — preserve "at most one primary
per user"; and promoting credential B of a user who also owns credential A
makes a re-read show B primary and A no longer primary. -/
theorem primary_uniqueness (db : DB) (hnd : credIdsNodup db)
    (hinv : atMostOnePrimary db) :
    (∀ cid uid pk nick ag sc isp now,
      atMostOnePrimary (YubiKey.create db cid uid pk nick ag sc isp now).1) ∧
    (∀ uid cid,
      atMostOnePrimary (WebAuthnService.set_primary_yubikey db uid cid).1) ∧
    (∀ (u : String) (A B : YubiKeyRow), A ∈ db.yubikeys → B ∈ db.yubikeys →
      A.user_id = u → B.user_id = u → A.credential_id ≠ B.credential_id →
      (WebAuthnService.set_primary_yubikey db u B.credential_id).2 = true ∧
      ∀ r ∈ (WebAuthnService.set_primary_yubikey db u B.credential_id).1.yubikeys,
        (r.credential_id = B.credential_id → r.is_primary = true) ∧
        (r.credential_id = A.credential_id → r.is_primary = false)) := by
  refine ⟨?_, ?_, ?_⟩
  · intro cid uid pk nick ag sc isp now
    exact create_at_most_one db hinv cid uid pk nick ag sc isp now
  · intro uid cid
    cases hfind : YubiKey.get_by_credential_id db cid with
    | none => simpa [WebAuthnService.set_primary_yubikey, hfind] using hinv
    | some yk =>
      by_cases hud : yk.user_id = uid
      · have hmem := List.mem_of_find?_eq_some hfind
        simp only [WebAuthnService.set_primary_yubikey, hfind, hud,
          bne_self_eq_false, Bool.false_eq_true, if_false]
        exact set_as_primary_at_most_one db yk hmem hnd hinv
      · have : (yk.user_id != uid) = true := by
          simpa using hud
        simpa [WebAuthnService.set_primary_yubikey, hfind, this] using hinv
  · intro u A B hA hB hAu hBu hAB
    have hfind : YubiKey.get_by_credential_id db B.credential_id = some B := by
      unfold YubiKey.get_by_credential_id
      cases hf : db.yubikeys.find?
          (fun r => r.credential_id == B.credential_id) with
      | none =>
        exfalso
        have := List.find?_eq_none.mp hf B hB
        simp at this
      | some yk =>
        have h1 := List.find?_some hf
        have h2 := List.mem_of_find?_eq_some hf
        rw [eq_of_mem_nodup_credIds hnd h2 hB (by simpa using h1)]
    have hred : WebAuthnService.set_primary_yubikey db u B.credential_id
        = YubiKey.set_as_primary db B := by
      simp [WebAuthnService.set_primary_yubikey, hfind, hBu]
    refine ⟨by simp [hred, YubiKey.set_as_primary], ?_⟩
    intro r hr
    rw [hred] at hr
    simp only [YubiKey.set_as_primary, YubiKey.clear_primaries, List.map_map,
      List.mem_map] at hr
    obtain ⟨r0, hr0, rfl⟩ := hr
    constructor
    · intro hcid
      by_cases hcc : r0.credential_id = B.credential_id
      · by_cases hcu : r0.user_id = B.user_id <;>
          simp [Function.comp, hcc, hcu]
      · exfalso
        apply hcc
        by_cases hcu : r0.user_id = B.user_id <;>
          simpa [Function.comp, hcu, hcc] using hcid
    · intro hcid
      by_cases hcc : r0.credential_id = B.credential_id
      · exfalso
        apply hAB
        rw [← hcid]
        by_cases hcu : r0.user_id = B.user_id <;>
          simp [Function.comp, hcu, hcc]
      · have hr0A : r0 = A := by
          refine eq_of_mem_nodup_credIds hnd hr0 hA ?_
          by_cases hcu : r0.user_id = B.user_id <;>
            simpa [Function.comp, hcu, hcc] using hcid
        subst hr0A
        simp [Function.comp, hcc, hAu, hBu]

/-- Witness for C2: in the two-credential store, promoting `sampleKeyB`
succeeds and a re-read shows `credB` primary and `credA` no longer
primary. -/
theorem primary_uniqueness_witness :
    (WebAuthnService.set_primary_yubikey sampleDB2 "u1"
        sampleKeyB.credential_id).2 = true ∧
    ∀ r ∈ (WebAuthnService.set_primary_yubikey sampleDB2 "u1"
        sampleKeyB.credential_id).1.yubikeys,
      (r.credential_id = sampleKeyB.credential_id → r.is_primary = true) ∧
      (r.credential_id = sampleKeyA.credential_id → r.is_primary = false) := by
  have hinv : atMostOnePrimary sampleDB2 := by
    intro uid
    by_cases h : ("u1" : String) = uid
    · rw [← h]
      decide
    · simp [sampleDB2, sampleKeyA, sampleKeyB, List.countP_cons,
        List.countP_nil, h]
  exact (primary_uniqueness sampleDB2 (by unfold credIdsNodup; decide) hinv).2.2 "u1"
    sampleKeyA sampleKeyB (by simp [sampleDB2]) (by simp [sampleDB2])
    rfl rfl (by decide)

/-- When all bindings for a key are filtered out, lookup finds nothing. -/
theorem lookup_filter_self (uid : String) (l : List (String × String)) :
    List.lookup uid (l.filter (fun p => !(p.1 == uid))) = none := by
  induction l with
  | nil => rfl
  | cons x t ih =>
    rcases x with ⟨k, v⟩
    by_cases h : k = uid
    · simpa [List.filter_cons, h] using ih
    · have h2 : (uid == k) = false := by
        simpa using fun he => h he.symm
      have h3 : (k == uid) = false := by
        simpa using h
      simp [List.filter_cons, h3, List.lookup, h2, ih]

/-- Counterexample to C9 as stated: with a pending challenge for `u1`, a
ceremony whose verification fails completes with an error but the challenge
is NOT deleted — the store is returned unchanged and the challenge is still
pending, so it is not "consumed and deleted exactly once whether
verification succeeds or fails". -/
theorem challenge_survives_failed_verification :
    WebAuthnManager.verify_registration_response sampleCredFile "u1" none 5
      = (sampleCredFile, .verificationError) ∧
    WebAuthnManager.get_challenge
      (WebAuthnManager.verify_registration_response sampleCredFile "u1"
        none 5).1 "u1" = some "chal1" := by decide

/-- Claim C9 (amended): a pending challenge is consumed and deleted when
verification succeeds (after the credential is stored); completing a
ceremony with no pending challenge fails without touching any state; but on
failed verification the store is left unchanged — the challenge is retained,
not deleted. -/
theorem challenge_consumption_spec (s : WebAuthnManager.CredFile)
    (user_id : String) (v : Option WebAuthnManager.VerifiedRegistration)
    (now : Nat) :
    (WebAuthnManager.get_challenge s user_id = none →
      WebAuthnManager.verify_registration_response s user_id v now
        = (s, .challengeNotFound)) ∧
    (∀ ch, WebAuthnManager.get_challenge s user_id = some ch → v = none →
      WebAuthnManager.verify_registration_response s user_id v now
        = (s, .verificationError)) ∧
    (∀ ch vr, WebAuthnManager.get_challenge s user_id = some ch →
      v = some vr →
      WebAuthnManager.get_challenge
        (WebAuthnManager.verify_registration_response s user_id v now).1
        user_id = none ∧
      (WebAuthnManager.verify_registration_response s user_id v now).2
        = .verified vr.credential_id) := by
  refine ⟨?_, ?_, ?_⟩
  · intro h
    simp [WebAuthnManager.verify_registration_response, h]
  · intro ch h hv
    subst hv
    simp [WebAuthnManager.verify_registration_response, h]
  · intro ch vr h hv
    subst hv
    refine ⟨?_, by simp [WebAuthnManager.verify_registration_response, h]⟩
    simp only [WebAuthnManager.verify_registration_response, h]
    simp only [WebAuthnManager.get_challenge,
      WebAuthnManager.remove_challenge, WebAuthnManager.store_credential]
    exact lookup_filter_self user_id _

/-- Witness for C9 (amended): a successful ceremony consumes the pending
challenge and reports the verified credential. -/
theorem challenge_consumption_spec_witness :
    WebAuthnManager.get_challenge
      (WebAuthnManager.verify_registration_response sampleCredFile "u1"
        (some sampleVerifiedReg) 5).1 "u1" = none ∧
    (WebAuthnManager.verify_registration_response sampleCredFile "u1"
      (some sampleVerifiedReg) 5).2
      = .verified sampleVerifiedReg.credential_id := by
  have h := (challenge_consumption_spec sampleCredFile "u1"
    (some sampleVerifiedReg) 5).2.2 "chal1" sampleVerifiedReg (by decide) rfl
  exact ⟨h.1, h.2⟩
